import Mathlib

/-!
Verification of the quiz-bot core (question selection, response recording,
broadcast fan-out, week buckets, leaderboards, slot management, scheduler
job registration), shallowly embedded from the Python sources.

Modelling conventions:
* SQLite rows become Lean structures; a table is a `List` of rows in
  insertion order (AUTOINCREMENT ids are explicit fields).
* Calendar dates stored as ISO `YYYY-MM-DD` strings compare
  lexicographically in SQLite, which is order-isomorphic to chronological
  order, so `date` / `scheduled_date` columns are modelled as abstract day
  numbers (`Nat`) wherever only their order matters.  The week-bucket
  computation (`utils/time_utils.py`) needs real calendar arithmetic and
  gets a dedicated `YMD` structure together with a port of CPython's
  `date.isocalendar`.
* `sqlite3.IntegrityError` raised by a UNIQUE or CHECK constraint is
  modelled by the guard of the corresponding insert function.
* Timestamps are abstract `Nat` ticks; elapsed time is an `Int` difference
  (the code stores it unclamped).
-/

namespace QuizBot

/-- The `target_groups` TEXT column of `questions`: either the sentinel
string `all` or a JSON array of explicit group keys
(`handlers/quiz_handler.py` branches on `target_groups_str == 'all'` and
otherwise parses the JSON list). -/
inductive TargetGroups where
  | all : TargetGroups
  | groupList : List String → TargetGroups
deriving DecidableEq, Repr

/-- A row of the `questions` table (`database/schema.py`,
`CREATE_QUESTIONS_TABLE`, plus the `scheduled_date` and `target_groups`
columns used by `db_manager.py`). -/
structure Question where
  question_id : Nat
  question_text : String
  image_file_id : Option String
  image_local_path : Option String
  option_a : String
  option_b : String
  option_c : String
  option_d : String
  correct_option : Char
  posted_time : Option Nat
  slot : String
  week_number : Nat
  date : Nat
  is_posted : Bool
  scheduled_date : Option Nat
  target_groups : TargetGroups
deriving DecidableEq, Repr

/-- `ORDER BY question_id ASC LIMIT 1` comparison key. -/
def qIdLe (a b : Question) : Bool :=
  a.question_id ≤ b.question_id

/-- `ORDER BY date ASC, question_id ASC LIMIT 1` comparison key. -/
def qKeyLe (a b : Question) : Bool :=
  a.date < b.date || (a.date == b.date && a.question_id ≤ b.question_id)

/-- `SELECT ... ORDER BY key LIMIT 1` over an unordered row multiset:
return a row minimal for `le` (ties go to the earlier row). -/
def minBy {α : Type} (le : α → α → Bool) : List α → Option α
  | [] => none
  | x :: xs =>
    match minBy le xs with
    | none => some x
    | some y => if le x y then some x else some y

/-- `scheduled_date IS NULL OR scheduled_date <= today` filter of the
second query of `get_next_unposted_question`. -/
def schedOk (today : Nat) (q : Question) : Bool :=
  match q.scheduled_date with
  | none => true
  | some d => d ≤ today

/-- `DatabaseManager.get_next_unposted_question` (`database/db_manager.py`):
first query rows with `slot = ? AND is_posted = 0 AND scheduled_date = today`
ordered by `question_id`; if none, rows with
`slot = ? AND is_posted = 0 AND (scheduled_date IS NULL OR scheduled_date <= today)`
ordered by `(date, question_id)`; else `None`. -/
def get_next_unposted_question (qs : List Question) (slot : String) (today : Nat) :
    Option Question :=
  match minBy qIdLe (qs.filter fun q =>
      q.slot == slot && !q.is_posted && q.scheduled_date == some today) with
  | some q => some q
  | none =>
    minBy qKeyLe (qs.filter fun q =>
      q.slot == slot && !q.is_posted && schedOk today q)

/-- A row of the `responses` table (`database/schema.py`,
`CREATE_RESPONSES_TABLE`, plus the `group_id` column added by
`database/migration_multigroup.py`). -/
structure ResponseRow where
  user_id : Nat
  username : String
  question_id : Nat
  selected_option : Char
  is_correct : Nat
  response_time : Nat
  time_taken : Int
  week_number : Nat
  date : Nat
  group_id : String
deriving DecidableEq, Repr

/-- The CHECK constraints of `CREATE_RESPONSES_TABLE`:
`selected_option IN ('A','B','C','D')` and `is_correct IN (0, 1)`. -/
def responseChecks (r : ResponseRow) : Bool :=
  (r.selected_option == 'A' || r.selected_option == 'B' ||
   r.selected_option == 'C' || r.selected_option == 'D') &&
  (r.is_correct == 0 || r.is_correct == 1)

/-- The `UNIQUE(user_id, question_id)` conflict test of the `responses`
table. -/
def hasResponse (rs : List ResponseRow) (u q : Nat) : Bool :=
  rs.any fun x => x.user_id == u && x.question_id == q

/-- `DatabaseManager.add_response` (`database/db_manager.py`): INSERT the
row; a `sqlite3.IntegrityError` (UNIQUE or CHECK violation) is caught and
reported as `False` with the table unchanged. -/
def add_response (rs : List ResponseRow) (r : ResponseRow) : List ResponseRow × Bool :=
  if responseChecks r && !hasResponse rs r.user_id r.question_id then
    (rs ++ [r], true)
  else
    (rs, false)

/-- `DatabaseManager.get_user_response`: point lookup of the response of
`user_id` to `question_id`. -/
def get_user_response (rs : List ResponseRow) (u q : Nat) : Option ResponseRow :=
  rs.find? fun x => x.user_id == u && x.question_id == q

/-- Stable insertion into a le-sorted list (helper for modelling SQL
`ORDER BY`). -/
def insertLe {α : Type} (le : α → α → Bool) (x : α) : List α → List α
  | [] => [x]
  | y :: ys => if le x y then x :: y :: ys else y :: insertLe le x ys

/-- Stable insertion sort, the model of SQL `ORDER BY key` (any order
sorted for the key is a faithful reading; SQLite leaves tie order
unspecified). -/
def sortLe {α : Type} (le : α → α → Bool) : List α → List α
  | [] => []
  | x :: xs => insertLe le x (sortLe le xs)

/-- ASCII lowercase of a string, the model of Python `str.lower()` on the
alphabetic slot names the admin flow validates (`slot_name.isalpha()`). -/
def lowerString (s : String) : String := ⟨s.data.map Char.toLower⟩

/-- A proleptic-Gregorian calendar date, as CPython `datetime.date`. -/
structure YMD where
  year : Nat
  month : Nat
  day : Nat
deriving DecidableEq, Repr

/-- Gregorian leap-year test (CPython `_is_leap`). -/
def isLeap (y : Nat) : Bool := y % 4 == 0 && (y % 100 != 0 || y % 400 == 0)

/-- Days before the first of `m` in year `y` (CPython `_DAYS_BEFORE_MONTH`
plus the leap-day adjustment of `_days_before_month`). -/
def daysBeforeMonth (y m : Nat) : Nat :=
  let base :=
    match m with
    | 2 => 31 | 3 => 59 | 4 => 90 | 5 => 120 | 6 => 151
    | 7 => 181 | 8 => 212 | 9 => 243 | 10 => 273 | 11 => 304 | 12 => 334
    | _ => 0
  if 2 < m ∧ isLeap y then base + 1 else base

/-- Days before January 1 of year `y` (CPython `_days_before_year`). -/
def daysBeforeYear (y : Nat) : Nat :=
  365 * (y - 1) + (y - 1) / 4 + (y - 1) / 400 - (y - 1) / 100

/-- CPython `_ymd2ord`: proleptic-Gregorian ordinal of a date
(0001-01-01 is ordinal 1). -/
def ymd2ord (d : YMD) : Nat :=
  daysBeforeYear d.year + daysBeforeMonth d.year d.month + d.day

/-- CPython `_isoweek1monday`: ordinal of the Monday starting ISO week 1 of
`year`. -/
def isoweek1monday (year : Nat) : Int :=
  let firstday : Int := (ymd2ord ⟨year, 1, 1⟩ : Int)
  let firstweekday : Int := (firstday + 6) % 7
  let week1monday := firstday - firstweekday
  if 3 < firstweekday then week1monday + 7 else week1monday

/-- CPython `date.isocalendar`: the (ISO year, ISO week, ISO weekday)
triple, ported statement by statement (Python `divmod` floor semantics
become `Int.fdiv`/`Int.fmod`).  Checked against CPython on dates across
several year boundaries. -/
def isocalendar (d : YMD) : Nat × Nat × Nat :=
  let today : Int := (ymd2ord d : Int)
  let w1 := isoweek1monday d.year
  let week := (today - w1).fdiv 7
  let dayo := (today - w1).fmod 7
  if week < 0 then
    let w1p := isoweek1monday (d.year - 1)
    let weekp := (today - w1p).fdiv 7
    let dayp := (today - w1p).fmod 7
    (d.year - 1, (weekp + 1).toNat, (dayp + 1).toNat)
  else if 52 ≤ week ∧ isoweek1monday (d.year + 1) ≤ today then
    (d.year + 1, 1, (dayo + 1).toNat)
  else
    (d.year, (week + 1).toNat, (dayo + 1).toNat)

/-- `get_week_number` (`utils/time_utils.py`): the calendar year
(`target_date.year`) times 100 plus the ISO week number
(`target_date.isocalendar()[1]`). -/
def get_week_number (d : YMD) : Nat :=
  d.year * 100 + (isocalendar d).2.1

/-- Modelled from the spec words, for comparison with `get_week_number`:
the ISO (year, week) composite `ISO-year * 100 + ISO-week`. -/
def isoWeekBucket (d : YMD) : Nat :=
  (isocalendar d).1 * 100 + (isocalendar d).2.1

/-- The CHECK constraints of `CREATE_QUESTIONS_TABLE`
(`database/schema.py`): `correct_option IN ('A','B','C','D')` and
`slot IN ('morning', 'evening')`. -/
def questionChecks (correct_option : Char) (slot : String) : Bool :=
  (correct_option == 'A' || correct_option == 'B' ||
   correct_option == 'C' || correct_option == 'D') &&
  (slot == "morning" || slot == "evening")

/-- AUTOINCREMENT id for a fresh `questions` row. -/
def nextQuestionId (qs : List Question) : Nat :=
  (qs.map Question.question_id).foldr max 0 + 1

/-- `DatabaseManager.add_question` (`database/db_manager.py`): INSERT a new
question row; the function itself does not catch `sqlite3.IntegrityError`,
so a CHECK-constraint violation escapes as an error. -/
def add_question (qs : List Question) (question_text : String)
    (image_file_id image_local_path : Option String)
    (oa ob oc od : String) (correct_option : Char) (slot : String)
    (week_number : Nat) (question_date : Nat) (scheduled_date : Option Nat)
    (target_groups : TargetGroups) : Except String (List Question × Nat) :=
  if questionChecks correct_option slot then
    let qid := nextQuestionId qs
    .ok (qs ++ [⟨qid, question_text, image_file_id, image_local_path, oa, ob, oc, od,
      correct_option, none, slot, week_number, question_date, false, scheduled_date,
      target_groups⟩], qid)
  else
    .error "IntegrityError: CHECK constraint failed: questions"

/-- A row of the `slots_config` table (`database/schema.py`,
`CREATE_SLOTS_CONFIG_TABLE`).  The `created_at` column is irrelevant to all
claims and omitted. -/
structure SlotRow where
  slot_id : Nat
  slot_name : String
  hour : Nat
  minute : Nat
  is_active : Bool
deriving DecidableEq, Repr

/-- `ORDER BY hour ASC, minute ASC` comparison key of `get_all_slots`. -/
def slotTimeLe (a b : SlotRow) : Bool :=
  a.hour < b.hour || (a.hour == b.hour && a.minute ≤ b.minute)

/-- `DatabaseManager.get_all_slots(active_only=True)`:
`SELECT * FROM slots_config WHERE is_active = 1 ORDER BY hour, minute`. -/
def get_all_slots (store : List SlotRow) : List SlotRow :=
  sortLe slotTimeLe (store.filter fun s => s.is_active)

/-- AUTOINCREMENT id for a fresh `slots_config` row. -/
def nextSlotId (store : List SlotRow) : Nat :=
  (store.map SlotRow.slot_id).foldr max 0 + 1

/-- `DatabaseManager.add_slot`: INSERT `(slot_name.lower(), hour, minute)`;
a `sqlite3.IntegrityError` — the UNIQUE constraint on `slot_name` (spanning
inactive rows too) or the CHECK bounds on hour/minute — is caught and
reported as the sentinel `-1`.  Hours and minutes are `Nat`, so only the
upper CHECK bounds are modelled. -/
def add_slot (store : List SlotRow) (slot_name : String) (hour minute : Nat) :
    List SlotRow × Int :=
  let nm := lowerString slot_name
  if store.any (fun s => s.slot_name == nm) || ¬(hour ≤ 23 && minute ≤ 59) then
    (store, -1)
  else
    (store ++ [⟨nextSlotId store, nm, hour, minute, true⟩], (nextSlotId store : Int))

/-- `DatabaseManager.delete_slot`: `UPDATE slots_config SET is_active = 0
WHERE slot_id = ?` — the row is deactivated, never removed; returns whether
any row matched. -/
def delete_slot (store : List SlotRow) (sid : Nat) : List SlotRow × Bool :=
  (store.map fun s => if s.slot_id == sid then { s with is_active := false } else s,
   store.any fun s => s.slot_id == sid)

/-- Outcome of the delete branch of `handle_slot_action`
(`handlers/admin_handler.py`). -/
inductive SlotMenuResult where
  | noSlots : SlotMenuResult
  | rejectedLastSlot : SlotMenuResult
  | selectionMenu : List SlotRow → SlotMenuResult
deriving DecidableEq, Repr

/-- The `delete` branch of `handle_slot_action`: fetch the active slots; if
none, report; if exactly one, refuse (`Cannot delete the last remaining
slot!`) without touching the store; otherwise show the selection menu. -/
def handle_slot_delete_action (store : List SlotRow) :
    List SlotRow × SlotMenuResult :=
  let slots := get_all_slots store
  if slots.isEmpty then (store, .noSlots)
  else if slots.length == 1 then (store, .rejectedLastSlot)
  else (store, .selectionMenu slots)

/-- A live APScheduler job as registered by `scheduler/scheduler.py`:
`id = slot_name + "_quiz"`, a daily `CronTrigger(hour, minute, timezone)`.
-/
structure Job where
  id : String
  hour : Nat
  minute : Nat
  timezone : String
deriving DecidableEq, Repr

/-- `config.TIMEZONE` default (`config.py`). -/
def TIMEZONE : String := "Asia/Kolkata"

/-- The job `setup_scheduler` registers for one slot row. -/
def slotJob (s : SlotRow) : Job :=
  ⟨s.slot_name ++ "_quiz", s.hour, s.minute, TIMEZONE⟩

/-- `scheduler.add_job(..., replace_existing=True)`: replace the job with
the same id, else append. -/
def add_job (jobs : List Job) (j : Job) : List Job :=
  if jobs.any (fun x => x.id == j.id) then
    jobs.map fun x => if x.id == j.id then j else x
  else jobs ++ [j]

/-- `setup_scheduler` (`scheduler/scheduler.py`): load the active slots and
register one cron job per slot.  The nightly-report `add_job` call is
commented out in the source (`Nightly report disabled - use
/sendleaderboard command instead`), so only slot jobs are registered. -/
def setup_scheduler (store : List SlotRow) : List Job :=
  (get_all_slots store).foldl (fun js s => add_job js (slotJob s)) []

/-- A leaderboard row as returned by the leaderboard queries:
`user_id, username, SUM(is_correct) as score, SUM(time_taken) as
total_time`. -/
structure LeaderboardEntry where
  user_id : Nat
  username : String
  score : Nat
  total_time : Int
deriving DecidableEq, Repr

/-- `ORDER BY score DESC, total_time ASC` comparison key. -/
def rankLe (a b : LeaderboardEntry) : Bool :=
  b.score < a.score || (a.score == b.score && a.total_time ≤ b.total_time)

/-- Duplicate removal keeping first occurrences (helper for modelling SQL
`GROUP BY` keys; the key set is what matters, the order is arbitrary). -/
def dedupFirst {α : Type} [DecidableEq α] : List α → List α
  | [] => []
  | x :: xs => x :: (dedupFirst xs).filter fun y => ¬(y == x)

/-- The `GROUP BY user_id, username` keys of a response list, in first
appearance order. -/
def userKeys (rs : List ResponseRow) : List (Nat × String) :=
  dedupFirst (rs.map fun r => (r.user_id, r.username))

/-- Sum of `is_correct` over a response list (`SUM(is_correct)`). -/
def sumCorrect (rs : List ResponseRow) : Nat :=
  (rs.map ResponseRow.is_correct).sum

/-- Sum of `time_taken` over a response list (`SUM(time_taken)`). -/
def sumTime (rs : List ResponseRow) : Int :=
  (rs.map ResponseRow.time_taken).sum

/-- `GROUP BY user_id, username` with the two SUM aggregates. -/
def aggregate (rs : List ResponseRow) : List LeaderboardEntry :=
  (userKeys rs).map fun k =>
    let mine := rs.filter fun r => r.user_id == k.1 && r.username == k.2
    ⟨k.1, k.2, sumCorrect mine, sumTime mine⟩

/-- `DatabaseManager.get_daily_leaderboard`: filter responses by `date`,
group by `(user_id, username)`, sum correctness and elapsed time, order by
score descending then total time ascending, and `LIMIT ?`. -/
def get_daily_leaderboard (rs : List ResponseRow) (d : Nat) (limit : Nat) :
    List LeaderboardEntry :=
  (sortLe rankLe (aggregate (rs.filter fun r => r.date == d))).take limit

/-- `DatabaseManager.get_weekly_leaderboard`: as the daily variant, with a
`week_number` filter. -/
def get_weekly_leaderboard (rs : List ResponseRow) (w : Nat) (limit : Nat) :
    List LeaderboardEntry :=
  (sortLe rankLe (aggregate (rs.filter fun r => r.week_number == w))).take limit

/-- The Python default of the `limit` parameter of both leaderboard
queries, also `config.LEADERBOARD_SIZE`. -/
def LEADERBOARD_DEFAULT_LIMIT : Nat := 5

/-- Demo data for the selection claim: Q1 has no scheduled date and the
earlier creation date, Q2 is explicitly scheduled for day 3 (today). -/
def demoQ1 : Question :=
  ⟨1, "Q1", none, none, "a", "b", "c", "d", 'A', none, "morning", 202401, 1, false, none, .all⟩

/-- Second demo question, scheduled for day 3. -/
def demoQ2 : Question :=
  ⟨2, "Q2", none, none, "a", "b", "c", "d", 'B', none, "morning", 202401, 2, false, some 3, .all⟩

/-- Demo questions table. -/
def demoQuestions : List Question := [demoQ1, demoQ2]

/-- A row of the `quiz_posts` table (created by
`database/migration_multigroup.py`): one post of one question to one
group, carrying the transport-issued poll id (UNIQUE) and the fan-out
timestamp. -/
structure QuizPost where
  question_id : Nat
  group_id : String
  poll_id : String
  posted_time : Nat
deriving DecidableEq, Repr

/-- A fast-path cache entry of `context.bot_data['active_quizzes']`
(`handlers/quiz_handler.py`). -/
structure ActiveQuiz where
  question_id : Nat
  posted_time : Nat
  correct_option : Char
  group_id : String
deriving DecidableEq, Repr

/-- The mutable state the posting and answering handlers touch: the
`questions` and `responses` tables, the `quiz_posts` table, the in-memory
poll cache, and a log of the `mark_question_posted` UPDATE statements
issued (to state that a question is marked posted exactly once). -/
structure BotState where
  questions : List Question
  responses : List ResponseRow
  posts : List QuizPost
  cache : List (String × ActiveQuiz)
  markEvents : List (Nat × Nat)
deriving DecidableEq, Repr

/-- `DatabaseManager.mark_question_posted`: `UPDATE questions SET
is_posted = 1, posted_time = ? WHERE question_id = ?` (and log the
UPDATE). -/
def mark_question_posted (s : BotState) (qid t : Nat) : BotState :=
  { s with
    questions := s.questions.map fun q =>
      if q.question_id == qid then { q with is_posted := true, posted_time := some t }
      else q,
    markEvents := s.markEvents ++ [(qid, t)] }

/-- `DatabaseManager.create_quiz_post`: INSERT into `quiz_posts`; the
UNIQUE constraint on `poll_id` makes a duplicate poll id raise (`none`). -/
def create_quiz_post (posts : List QuizPost) (qid : Nat) (g pid : String) (t : Nat) :
    Option (List QuizPost) :=
  if posts.any (fun p => p.poll_id == pid) then none
  else some (posts ++ [⟨qid, g, pid, t⟩])

/-- Python dict assignment `active_quizzes[poll_id] = info`. -/
def cachePut (c : List (String × ActiveQuiz)) (pid : String) (info : ActiveQuiz) :
    List (String × ActiveQuiz) :=
  (c.filter fun e => e.1 != pid) ++ [(pid, info)]

/-- `post_to_group` (`handlers/quiz_handler.py`): send the question body
and the poll to the group's chat — `send` returns the transport poll id,
or `none` when the transport raises — then record the quiz post and
populate the fast-path cache for the poll id.  `none` models an exception
escaping the function before the records are written.  The local-image
file-id write-back onto the question is orthogonal to every claim and
omitted. -/
def post_to_group (send : String → Option String) (q : Question) (g : String) (t : Nat)
    (s : BotState) : Option BotState :=
  match send g with
  | none => none
  | some pid =>
    match create_quiz_post s.posts q.question_id g pid t with
    | none => none
    | some ps =>
      some { s with
        posts := ps,
        cache := cachePut s.cache pid ⟨q.question_id, t, q.correct_option, g⟩ }

/-- Target-group resolution shared by `post_quiz` and `post_quiz_by_id`:
the `all` sentinel means every configured group key, otherwise the decoded
JSON list. -/
def resolve_groups (cfg : List String) (tg : TargetGroups) : List String :=
  match tg with
  | .all => cfg
  | .groupList l => l

/-- The fan-out loop of `post_quiz`: group keys missing from
`config.GROUP_CONFIGS` are skipped with a warning; an exception from
`post_to_group` is caught and logged and does not abort the remaining
groups. -/
def post_quiz_loop (cfg : List String) (send : String → Option String) (q : Question)
    (t : Nat) : List String → BotState → BotState
  | [], s => s
  | g :: gs, s =>
    if cfg.contains g then
      match post_to_group send q g t s with
      | some s2 => post_quiz_loop cfg send q t gs s2
      | none => post_quiz_loop cfg send q t gs s
    else
      post_quiz_loop cfg send q t gs s

/-- `post_quiz` (`handlers/quiz_handler.py`): select the next unposted
question of the slot (return unchanged when none), fan out to the resolved
groups with per-group failures caught, and mark the question posted once
after all groups were attempted, with the single fan-out timestamp. -/
def post_quiz (cfg : List String) (send : String → Option String) (today t : Nat)
    (s : BotState) (slot : String) : BotState :=
  match get_next_unposted_question s.questions slot today with
  | none => s
  | some q =>
    mark_question_posted
      (post_quiz_loop cfg send q t (resolve_groups cfg q.target_groups) s)
      q.question_id t

/-- `DatabaseManager.get_question_by_id`. -/
def get_question_by_id (qs : List Question) (qid : Nat) : Option Question :=
  qs.find? fun q => q.question_id == qid

/-- The fan-out loop of `post_quiz_by_id`: unknown group keys are skipped,
but a `post_to_group` failure re-raises after logging (`Except.error`,
carrying the state mutated so far). -/
def post_by_id_loop (cfg : List String) (send : String → Option String) (q : Question)
    (t : Nat) : List String → BotState → Except BotState BotState
  | [], s => .ok s
  | g :: gs, s =>
    if cfg.contains g then
      match post_to_group send q g t s with
      | some s2 => post_by_id_loop cfg send q t gs s2
      | none => .error s
    else
      post_by_id_loop cfg send q t gs s

/-- `post_quiz_by_id` (`handlers/quiz_handler.py`): the immediate
admin-triggered posting path — the question is marked posted BEFORE the
fan-out (`Mark as posted first to avoid duplicate posting`), and a
per-group failure re-raises. -/
def post_quiz_by_id (cfg : List String) (send : String → Option String) (t : Nat)
    (s : BotState) (qid : Nat) : Except BotState BotState :=
  match get_question_by_id s.questions qid with
  | none => .ok s
  | some q =>
    post_by_id_loop cfg send q t (resolve_groups cfg q.target_groups)
      (mark_question_posted s qid t)

/-- Cache lookup `active_quizzes.get(poll_id)`. -/
def cacheGet (c : List (String × ActiveQuiz)) (pid : String) : Option ActiveQuiz :=
  (c.find? fun e => e.1 == pid).map fun e => e.2

/-- `DatabaseManager.get_post_by_poll_id`. -/
def get_post_by_poll_id (posts : List QuizPost) (pid : String) : Option QuizPost :=
  posts.find? fun p => p.poll_id == pid

/-- The correlation lookup of `handle_poll_answer`: the fast-path cache
first, then the `quiz_posts` table joined to the question for the correct
option. -/
def resolve_quiz (s : BotState) (pid : String) : Option ActiveQuiz :=
  match cacheGet s.cache pid with
  | some info => some info
  | none =>
    match get_post_by_poll_id s.posts pid with
    | none => none
    | some p =>
      match get_question_by_id s.questions p.question_id with
      | none => none
      | some q => some ⟨p.question_id, p.posted_time, q.correct_option, p.group_id⟩

/-- Outcome reported by `handle_poll_answer` (via its log lines). -/
inductive AnswerOutcome where
  | recorded : AnswerOutcome
  | duplicate : AnswerOutcome
  | unknownPoll : AnswerOutcome
  | ignored : AnswerOutcome
deriving DecidableEq, Repr

/-- Index-to-letter mapping `chr(ord('A') + selected_index)`. -/
def optionLetter (i : Nat) : Char := Char.ofNat ('A'.toNat + i)

/-- `handle_poll_answer` (`handlers/quiz_handler.py`): resolve the poll id
(silently discarding unknown polls), map the first selected option index
to a letter, score it against the correlation's correct option, compute
the elapsed seconds from the fan-out timestamp, and insert the response
row; the answer-time date and week bucket are passed in. -/
def handle_poll_answer (s : BotState) (pid : String) (user_id : Nat) (username : String)
    (option_ids : List Nat) (response_time response_date week_num : Nat) :
    BotState × AnswerOutcome :=
  match resolve_quiz s pid with
  | none => (s, .unknownPoll)
  | some info =>
    match option_ids with
    | [] => (s, .ignored)
    | i :: _ =>
      let selected := optionLetter i
      let row : ResponseRow :=
        ⟨user_id, username, info.question_id, selected,
         if selected = info.correct_option then 1 else 0,
         response_time, (response_time : Int) - (info.posted_time : Int),
         week_num, response_date, info.group_id⟩
      let res := add_response s.responses row
      ({ s with responses := res.1 }, if res.2 then .recorded else .duplicate)

/-- The groups of a fan-out whose send succeeds: configured and with a
poll id issued. -/
def succGroups (cfg : List String) (send : String → Option String) (gs : List String) :
    List String :=
  gs.filter fun g => cfg.contains g && (send g).isSome

/-- The poll id a successful send issued. -/
def pollIdOf (send : String → Option String) (g : String) : String :=
  (send g).getD ""

/-- Demo configured group keys. -/
def demoCfg : List String := ["g1", "g2"]

/-- Demo transport for the fan-out partial-failure scenario: the send to
`g1` fails, the send to `g2` succeeds with poll id `p2`. -/
def demoSend : String → Option String :=
  fun g => if g == "g2" then some "p2" else none

/-- Demo transport where every send fails. -/
def failSend : String → Option String := fun _ => none

/-- Initial demo state: the demo questions table, nothing else. -/
def demoState : BotState := ⟨demoQuestions, [], [], [], []⟩

/-- The two default slot rows `init_database` seeds
(morning 9:00, evening 18:00). -/
def defaultStore : List SlotRow :=
  [⟨1, "morning", 9, 0, true⟩, ⟨2, "evening", 18, 0, true⟩]

/-- A store holding exactly one active slot. -/
def singleSlotStore : List SlotRow := [⟨1, "morning", 9, 0, true⟩]

/-- The default store extended with a runtime-created slot `afternoon`. -/
def demoSlots3 : List SlotRow :=
  [⟨1, "morning", 9, 0, true⟩, ⟨2, "evening", 18, 0, true⟩,
   ⟨3, "afternoon", 15, 0, true⟩]

/-- Responses of a single user (id 1) recorded under two different
usernames on the same date 7. -/
def splitUserResponses : List ResponseRow :=
  [⟨1, "alice", 1, 'A', 1, 50, 10, 202402, 7, "group1"⟩,
   ⟨1, "bob", 2, 'B', 1, 60, 12, 202402, 7, "group1"⟩]

/-- The leaderboard example of the spec: user A 2 correct in 40s total,
user B 2 correct in 25s, user C 1 correct, all on date 9. -/
def demoBoardResponses : List ResponseRow :=
  [⟨101, "A", 1, 'A', 1, 10, 20, 202402, 9, "group1"⟩,
   ⟨101, "A", 2, 'A', 1, 10, 20, 202402, 9, "group1"⟩,
   ⟨102, "B", 1, 'A', 1, 10, 10, 202402, 9, "group1"⟩,
   ⟨102, "B", 2, 'A', 1, 10, 15, 202402, 9, "group1"⟩,
   ⟨103, "C", 1, 'A', 1, 10, 10, 202402, 9, "group1"⟩,
   ⟨103, "C", 2, 'B', 0, 10, 30, 202402, 9, "group1"⟩]

/-- Demo first response of user 10 to question 1. -/
def demoR1 : ResponseRow := ⟨10, "alice", 1, 'B', 0, 50, 5, 202401, 3, "group1"⟩

/-- Demo second (duplicate) response of user 10 to question 1, with a
different selected option. -/
def demoR2 : ResponseRow := ⟨10, "alice", 1, 'A', 1, 60, 15, 202401, 3, "group1"⟩

end QuizBot

namespace QuizBot

theorem minBy_eq_none {α : Type} (le : α → α → Bool) (l : List α) :
    minBy le l = none ↔ l = [] := by
  cases l with
  | nil => simp [minBy]
  | cons x xs =>
    simp only [minBy]
    cases h : minBy le xs with
    | none => simp
    | some y =>
      constructor
      · intro hc
        by_cases hle : le x y <;> simp [hle] at hc
      · intro hc
        exact absurd hc (List.cons_ne_nil x xs)

theorem minBy_mem {α : Type} (le : α → α → Bool) (l : List α) (x : α)
    (h : minBy le l = some x) : x ∈ l := by
  induction l with
  | nil => simp [minBy] at h
  | cons a as ih =>
    simp only [minBy] at h
    cases hm : minBy le as with
    | none =>
      rw [hm] at h
      simp at h
      simp [h]
    | some y =>
      rw [hm] at h
      by_cases hle : le a y
      · simp [hle] at h
        simp [h]
      · simp [hle] at h
        exact List.mem_cons_of_mem a (ih (h ▸ hm))

theorem minBy_min {α : Type} (le : α → α → Bool)
    (htrans : ∀ a b c, le a b = true → le b c = true → le a c = true)
    (htotal : ∀ a b, le a b = true ∨ le b a = true)
    (l : List α) (x : α) (h : minBy le l = some x) :
    ∀ y ∈ l, le x y = true := by
  induction l generalizing x with
  | nil => simp [minBy] at h
  | cons a as ih =>
    simp only [minBy] at h
    intro y hy
    cases hm : minBy le as with
    | none =>
      rw [hm] at h
      have hax : a = x := by simpa using h
      have hnil : as = [] := (minBy_eq_none le as).mp hm
      subst hnil
      rcases List.mem_cons.mp hy with hy2 | hy2
      · rw [hy2, ← hax]
        rcases htotal a a with h1 | h1 <;> exact h1
      · exact absurd hy2 (List.not_mem_nil y)
    | some b =>
      rw [hm] at h
      by_cases hle : le a b
      · have hax : a = x := by simpa [hle] using h
        rcases List.mem_cons.mp hy with hy2 | hy2
        · rw [hy2, ← hax]
          rcases htotal a a with h1 | h1 <;> exact h1
        · exact htrans x b y (hax ▸ hle) (ih b hm y hy2)
      · have hbx : b = x := by simpa [hle] using h
        rcases List.mem_cons.mp hy with hy2 | hy2
        · rw [hy2]
          rcases htotal x a with h1 | h1
          · exact h1
          · exact absurd (hbx ▸ h1) hle
        · exact hbx ▸ ih b hm y hy2

theorem qKeyLe_trans (a b c : Question)
    (h1 : qKeyLe a b = true) (h2 : qKeyLe b c = true) : qKeyLe a c = true := by
  simp only [qKeyLe, Bool.or_eq_true, Bool.and_eq_true, decide_eq_true_eq, beq_iff_eq] at *
  rcases h1 with h1 | ⟨h1, h1'⟩ <;> rcases h2 with h2 | ⟨h2, h2'⟩
  · exact Or.inl (h1.trans h2)
  · exact Or.inl (h2 ▸ h1)
  · exact Or.inl (h1 ▸ h2)
  · exact Or.inr ⟨h1.trans h2, h1'.trans h2'⟩

theorem qKeyLe_total (a b : Question) : qKeyLe a b = true ∨ qKeyLe b a = true := by
  simp only [qKeyLe, Bool.or_eq_true, Bool.and_eq_true, decide_eq_true_eq, beq_iff_eq]
  rcases Nat.lt_trichotomy a.date b.date with h | h | h
  · exact Or.inl (Or.inl h)
  · rcases Nat.le_total a.question_id b.question_id with h2 | h2
    · exact Or.inl (Or.inr ⟨h, h2⟩)
    · exact Or.inr (Or.inr ⟨h.symm, h2⟩)
  · exact Or.inr (Or.inl h)

theorem qIdLe_trans (a b c : Question)
    (h1 : qIdLe a b = true) (h2 : qIdLe b c = true) : qIdLe a c = true := by
  simp only [qIdLe, decide_eq_true_eq] at *
  exact h1.trans h2

theorem qIdLe_total (a b : Question) : qIdLe a b = true ∨ qIdLe b a = true := by
  simp only [qIdLe, decide_eq_true_eq]
  exact Nat.le_total a.question_id b.question_id

/-- C1: for every slot name, if some not-yet-posted question of that slot has
`scheduled_date = today`, `get_next_unposted_question` returns such a
question; otherwise, among not-yet-posted questions of the slot whose
`scheduled_date` is NULL or on/before today, it returns one minimal for
`(date, question_id)`; and it returns `none` (not an error) when no eligible
question exists. -/
theorem selectNext_spec (qs : List Question) (slot : String) (today : Nat) :
    ((∃ q ∈ qs, q.slot = slot ∧ q.is_posted = false ∧ q.scheduled_date = some today) →
      ∃ r, get_next_unposted_question qs slot today = some r ∧ r ∈ qs ∧
        r.slot = slot ∧ r.is_posted = false ∧ r.scheduled_date = some today) ∧
    ((∀ q ∈ qs, ¬(q.slot = slot ∧ q.is_posted = false ∧ q.scheduled_date = some today)) →
      (∃ q ∈ qs, q.slot = slot ∧ q.is_posted = false ∧ schedOk today q = true) →
      ∃ r, get_next_unposted_question qs slot today = some r ∧ r ∈ qs ∧
        r.slot = slot ∧ r.is_posted = false ∧ schedOk today r = true ∧
        ∀ q ∈ qs, q.slot = slot → q.is_posted = false → schedOk today q = true →
          qKeyLe r q = true) ∧
    ((∀ q ∈ qs, ¬(q.slot = slot ∧ q.is_posted = false ∧ schedOk today q = true)) →
      get_next_unposted_question qs slot today = none) := by
  refine ⟨?_, ?_, ?_⟩
  · rintro ⟨q, hq, hs, hp, hd⟩
    have hqf : q ∈ qs.filter fun q =>
        q.slot == slot && !q.is_posted && q.scheduled_date == some today := by
      rw [List.mem_filter]
      exact ⟨hq, by simp [hs, hp, hd]⟩
    have hne : (qs.filter fun q =>
        q.slot == slot && !q.is_posted && q.scheduled_date == some today) ≠ [] :=
      List.ne_nil_of_mem hqf
    cases hmin : minBy qIdLe (qs.filter fun q =>
        q.slot == slot && !q.is_posted && q.scheduled_date == some today) with
    | none => exact absurd ((minBy_eq_none _ _).mp hmin) hne
    | some r =>
      refine ⟨r, ?_, ?_⟩
      · simp [get_next_unposted_question, hmin]
      · have hr := minBy_mem _ _ _ hmin
        rw [List.mem_filter] at hr
        obtain ⟨hr1, hr2⟩ := hr
        simp only [Bool.and_eq_true, beq_iff_eq, Bool.not_eq_true'] at hr2
        exact ⟨hr1, hr2.1.1, hr2.1.2, hr2.2⟩
  · intro hnone hex
    have hempty : (qs.filter fun q =>
        q.slot == slot && !q.is_posted && q.scheduled_date == some today) = [] := by
      rw [List.filter_eq_nil_iff]
      intro q hq
      intro hc
      simp only [Bool.and_eq_true, beq_iff_eq, Bool.not_eq_true'] at hc
      exact hnone q hq ⟨hc.1.1, hc.1.2, hc.2⟩
    obtain ⟨q, hq, hs, hp, hd⟩ := hex
    have hqf : q ∈ qs.filter fun q => q.slot == slot && !q.is_posted && schedOk today q := by
      rw [List.mem_filter]
      exact ⟨hq, by simp [hs, hp, hd]⟩
    cases hmin : minBy qKeyLe (qs.filter fun q =>
        q.slot == slot && !q.is_posted && schedOk today q) with
    | none =>
      exact absurd ((minBy_eq_none _ _).mp hmin ▸ hqf) (List.not_mem_nil q)
    | some r =>
      refine ⟨r, ?_, ?_⟩
      · simp [get_next_unposted_question, hempty, minBy, hmin]
      · have hr := minBy_mem _ _ _ hmin
        rw [List.mem_filter] at hr
        obtain ⟨hr1, hr2⟩ := hr
        simp only [Bool.and_eq_true, beq_iff_eq, Bool.not_eq_true'] at hr2
        refine ⟨hr1, hr2.1.1, hr2.1.2, hr2.2, ?_⟩
        intro p hpm hps hpp hpe
        refine minBy_min qKeyLe qKeyLe_trans qKeyLe_total _ _ hmin p ?_
        rw [List.mem_filter]
        exact ⟨hpm, by simp [hps, hpp, hpe]⟩
  · intro hnone
    have h1 : (qs.filter fun q =>
        q.slot == slot && !q.is_posted && q.scheduled_date == some today) = [] := by
      rw [List.filter_eq_nil_iff]
      intro q hq hc
      simp only [Bool.and_eq_true, beq_iff_eq, Bool.not_eq_true'] at hc
      refine hnone q hq ⟨hc.1.1, hc.1.2, ?_⟩
      simp [schedOk, hc.2]
    have h2 : (qs.filter fun q => q.slot == slot && !q.is_posted && schedOk today q) = [] := by
      rw [List.filter_eq_nil_iff]
      intro q hq hc
      simp only [Bool.and_eq_true, beq_iff_eq, Bool.not_eq_true'] at hc
      exact hnone q hq ⟨hc.1.1, hc.1.2, hc.2⟩
    simp [get_next_unposted_question, h1, h2, minBy]

/-- Witness for C1: on the demo table where Q2 is scheduled for today,
selection succeeds. -/
theorem selectNext_spec_witness :
    (get_next_unposted_question demoQuestions "morning" 3).isSome = true := by
  obtain ⟨r, hr, -, -, -, -⟩ := (selectNext_spec demoQuestions "morning" 3).1
    ⟨demoQ2, by decide, by decide, by decide, by decide⟩
  rw [hr]
  rfl

/-- C2: the first `add_response` call for a (user, question) pair inserts
the row and reports `true` (inserted); any later call for the same pair,
with any option, reports `false` (duplicate) without raising and leaves the
table unchanged, so the stored row is still the first answer. -/
theorem add_response_first_answer_stands (rs : List ResponseRow) (r1 r2 : ResponseRow)
    (hchk : responseChecks r1 = true)
    (hnew : hasResponse rs r1.user_id r1.question_id = false)
    (hu : r2.user_id = r1.user_id) (hq : r2.question_id = r1.question_id) :
    add_response rs r1 = (rs ++ [r1], true) ∧
    add_response (rs ++ [r1]) r2 = (rs ++ [r1], false) ∧
    get_user_response (add_response (rs ++ [r1]) r2).1 r1.user_id r1.question_id = some r1 := by
  have h1 : add_response rs r1 = (rs ++ [r1], true) := by
    simp [add_response, hchk, hnew]
  have hdup : hasResponse (rs ++ [r1]) r2.user_id r2.question_id = true := by
    simp only [hasResponse, List.any_append, Bool.or_eq_true]
    right
    simp [hu, hq]
  have h2 : add_response (rs ++ [r1]) r2 = (rs ++ [r1], false) := by
    simp [add_response, hdup]
  refine ⟨h1, h2, ?_⟩
  rw [h2]
  simp only [get_user_response, List.find?_append]
  have hrs : (rs.find? fun x => x.user_id == r1.user_id && x.question_id == r1.question_id)
      = none := by
    rw [List.find?_eq_none]
    intro x hx hpx
    have := (List.any_eq_false.mp hnew) x hx
    exact this hpx
  rw [hrs]
  simp [List.find?]

/-- Witness for C2 at concrete rows. -/
theorem add_response_first_answer_stands_witness :
    add_response [] demoR1 = ([demoR1], true) ∧
    add_response [demoR1] demoR2 = ([demoR1], false) ∧
    get_user_response (add_response [demoR1] demoR2).1 10 1 = some demoR1 := by
  simpa using add_response_first_answer_stands [] demoR1 demoR2 (by decide) rfl rfl rfl

theorem insertLe_perm {α : Type} (le : α → α → Bool) (x : α) (l : List α) :
    (insertLe le x l).Perm (x :: l) := by
  induction l with
  | nil => simp [insertLe]
  | cons y ys ih =>
    simp only [insertLe]
    by_cases h : le x y
    · simp [h]
    · simp only [h, Bool.false_eq_true, not_false_iff, ite_false]
      exact (List.Perm.cons y ih).trans (List.Perm.swap x y ys)

theorem sortLe_perm {α : Type} (le : α → α → Bool) (l : List α) :
    (sortLe le l).Perm l := by
  induction l with
  | nil => simp [sortLe]
  | cons x xs ih =>
    exact (insertLe_perm le x (sortLe le xs)).trans (List.Perm.cons x ih)

theorem insertLe_sorted {α : Type} (le : α → α → Bool)
    (htrans : ∀ a b c, le a b = true → le b c = true → le a c = true)
    (htotal : ∀ a b, le a b = true ∨ le b a = true)
    (x : α) (l : List α) (hl : List.Pairwise (fun a b => le a b = true) l) :
    List.Pairwise (fun a b => le a b = true) (insertLe le x l) := by
  induction l with
  | nil => simp [insertLe]
  | cons y ys ih =>
    simp only [insertLe]
    rcases List.pairwise_cons.mp hl with ⟨hy, hys⟩
    by_cases h : le x y
    · simp only [h, ite_true]
      refine List.pairwise_cons.mpr ⟨?_, hl⟩
      intro z hz
      rcases List.mem_cons.mp hz with hz | hz
      · exact hz ▸ h
      · exact htrans x y z h (hy z hz)
    · simp only [h, Bool.false_eq_true, not_false_iff, ite_false]
      refine List.pairwise_cons.mpr ⟨?_, ih hys⟩
      intro z hz
      have hperm := insertLe_perm le x ys
      have hz2 : z ∈ x :: ys := hperm.mem_iff.mp hz
      rcases List.mem_cons.mp hz2 with hz2 | hz2
      · rw [hz2]
        rcases htotal x y with h1 | h1
        · exact absurd h1 h
        · exact h1
      · exact hy z hz2

theorem sortLe_sorted {α : Type} (le : α → α → Bool)
    (htrans : ∀ a b c, le a b = true → le b c = true → le a c = true)
    (htotal : ∀ a b, le a b = true ∨ le b a = true)
    (l : List α) :
    List.Pairwise (fun a b => le a b = true) (sortLe le l) := by
  induction l with
  | nil => simp [sortLe]
  | cons x xs ih => exact insertLe_sorted le htrans htotal x (sortLe le xs) ih

/-- C4 (evidence for the code bug): at 2024-12-30, an ISO week-1 date of
ISO year 2025, `get_week_number` pairs the calendar year 2024 with ISO week
1 and yields 202401 instead of the ISO composite 202501 — and the result
collides with the bucket of 2024-01-01, so the bucket is not the unique
ISO (year, week) key the spec (and the code comment) describe. -/
theorem get_week_number_not_iso_composite :
    isocalendar ⟨2024, 12, 30⟩ = (2025, 1, 1) ∧
    get_week_number ⟨2024, 12, 30⟩ = 202401 ∧
    isoWeekBucket ⟨2024, 12, 30⟩ = 202501 ∧
    get_week_number ⟨2024, 12, 30⟩ ≠ isoWeekBucket ⟨2024, 12, 30⟩ ∧
    get_week_number ⟨2024, 12, 30⟩ = get_week_number ⟨2024, 1, 1⟩ :=
  ⟨by decide, by decide, by decide, by decide, by decide⟩

/-- C5 (evidence for the code bug): the alphabetic slot name `afternoon`
can be created at runtime (`add_slot` accepts it), yet `add_question` with
that slot name hits the questions-table CHECK constraint
`slot IN ('morning','evening')` and raises instead of storing the
question; with the built-in name `morning` the same insert succeeds and
stores the slot string. -/
theorem add_question_rejects_runtime_slot :
    ("afternoon").data.all Char.isAlpha = true ∧
    (add_slot defaultStore "afternoon" 15 0).2 = 3 ∧
    add_question [] "What?" none none "a" "b" "c" "d" 'A' "afternoon" 202401 1 none
      TargetGroups.all = .error "IntegrityError: CHECK constraint failed: questions" ∧
    add_question [] "What?" none none "a" "b" "c" "d" 'A' "morning" 202401 1 none
      TargetGroups.all = .ok ([⟨1, "What?", none, none, "a", "b", "c", "d", 'A', none,
        "morning", 202401, 1, false, none, TargetGroups.all⟩], 1) :=
  ⟨by decide, by decide, rfl, rfl⟩

theorem append_quiz_inj :
    Function.Injective (fun n : String => n ++ "_quiz") := by
  intro a b h
  have h2 : (a ++ "_quiz").data = (b ++ "_quiz").data := congrArg String.data h
  rw [String.data_append, String.data_append] at h2
  have h3 := List.append_cancel_right h2
  have h4 := congrArg String.mk h3
  exact h4

theorem foldl_add_job (slots : List SlotRow) (acc : List Job)
    (hdisj : ∀ s ∈ slots, ∀ j ∈ acc, j.id ≠ (slotJob s).id)
    (hnd : (slots.map fun s => (slotJob s).id).Nodup) :
    slots.foldl (fun js s => add_job js (slotJob s)) acc = acc ++ slots.map slotJob := by
  induction slots generalizing acc with
  | nil => simp
  | cons s ss ih =>
    simp only [List.foldl_cons, List.map_cons]
    have hnotin : acc.any (fun x => x.id == (slotJob s).id) = false := by
      rw [List.any_eq_false]
      intro j hj
      simp only [beq_iff_eq]
      exact hdisj s (List.mem_cons_self s ss) j hj
    have hstep : add_job acc (slotJob s) = acc ++ [slotJob s] := by
      rw [add_job, hnotin]
      simp
    rw [hstep]
    rw [List.map_cons, List.nodup_cons] at hnd
    rw [ih (acc ++ [slotJob s]) ?_ hnd.2]
    · simp
    · intro s2 hs2 j hj
      rcases List.mem_append.mp hj with hj | hj
      · exact hdisj s2 (List.mem_cons_of_mem s hs2) j hj
      · have hj2 : j = slotJob s := List.mem_singleton.mp hj
        rw [hj2]
        intro hc
        exact hnd.1 (hc ▸ List.mem_map_of_mem (fun t => (slotJob t).id) hs2)

/-- C6 counterexample: on the default store (active slots morning 9:00 and
evening 18:00), `setup_scheduler` registers exactly the two slot jobs — the
live job set has no additional daily reporting trigger (the nightly-report
registration is commented out in `scheduler/scheduler.py`). -/
theorem setup_scheduler_no_report_trigger :
    setup_scheduler defaultStore =
      [⟨"morning_quiz", 9, 0, TIMEZONE⟩, ⟨"evening_quiz", 18, 0, TIMEZONE⟩] ∧
    (setup_scheduler defaultStore).length = 2 :=
  ⟨by decide, by decide⟩

/-- C6 amended: after `setup_scheduler`, the live job set is exactly one
recurring daily cron job per active slot, with id `slot_name + "_quiz"`,
firing at slot.hour:slot.minute in the configured timezone — and nothing
else (in particular no reporting trigger). -/
theorem setup_scheduler_slot_jobs_only (store : List SlotRow)
    (hnd : ((get_all_slots store).map SlotRow.slot_name).Nodup) :
    setup_scheduler store = (get_all_slots store).map slotJob := by
  rw [setup_scheduler]
  refine foldl_add_job (get_all_slots store) [] (by simp) ?_
  have : ((get_all_slots store).map fun s => (slotJob s).id)
      = ((get_all_slots store).map SlotRow.slot_name).map fun n => n ++ "_quiz" := by
    rw [List.map_map]
    rfl
  rw [this]
  exact hnd.map append_quiz_inj

/-- Witness for the amended C6 on the default store. -/
theorem setup_scheduler_slot_jobs_only_witness :
    setup_scheduler defaultStore = (get_all_slots defaultStore).map slotJob :=
  setup_scheduler_slot_jobs_only defaultStore (by decide)

theorem rankLe_trans (a b c : LeaderboardEntry)
    (h1 : rankLe a b = true) (h2 : rankLe b c = true) : rankLe a c = true := by
  simp only [rankLe, Bool.or_eq_true, Bool.and_eq_true, decide_eq_true_eq, beq_iff_eq] at *
  rcases h1 with h1 | ⟨h1, h1'⟩ <;> rcases h2 with h2 | ⟨h2, h2'⟩
  · exact Or.inl (h2.trans h1)
  · exact Or.inl (h2 ▸ h1)
  · exact Or.inl (h1 ▸ h2)
  · exact Or.inr ⟨h1.trans h2, h1'.trans h2'⟩

theorem rankLe_total (a b : LeaderboardEntry) :
    rankLe a b = true ∨ rankLe b a = true := by
  simp only [rankLe, Bool.or_eq_true, Bool.and_eq_true, decide_eq_true_eq, beq_iff_eq]
  rcases Nat.lt_trichotomy a.score b.score with h | h | h
  · exact Or.inr (Or.inl h)
  · rcases Int.le_total a.total_time b.total_time with h2 | h2
    · exact Or.inl (Or.inr ⟨h, h2⟩)
    · exact Or.inr (Or.inr ⟨h.symm, h2⟩)
  · exact Or.inl (Or.inl h)

theorem aggregate_mem (rs : List ResponseRow) (e : LeaderboardEntry)
    (he : e ∈ aggregate rs) :
    e.score = sumCorrect (rs.filter fun r =>
        r.user_id == e.user_id && r.username == e.username) ∧
    e.total_time = sumTime (rs.filter fun r =>
        r.user_id == e.user_id && r.username == e.username) := by
  simp only [aggregate, List.mem_map] at he
  obtain ⟨k, hk, he⟩ := he
  subst he
  exact ⟨rfl, rfl⟩

theorem leaderboard_core (rs2 : List ResponseRow) (limit : Nat) :
    List.Pairwise (fun a b => rankLe a b = true)
      ((sortLe rankLe (aggregate rs2)).take limit) ∧
    ((sortLe rankLe (aggregate rs2)).take limit).length ≤ limit ∧
    ∀ e ∈ (sortLe rankLe (aggregate rs2)).take limit,
      e.score = sumCorrect (rs2.filter fun r =>
          r.user_id == e.user_id && r.username == e.username) ∧
      e.total_time = sumTime (rs2.filter fun r =>
          r.user_id == e.user_id && r.username == e.username) := by
  refine ⟨?_, ?_, ?_⟩
  · exact (sortLe_sorted rankLe rankLe_trans rankLe_total (aggregate rs2)).sublist
      (List.take_sublist limit _)
  · exact List.length_take_le limit _
  · intro e he
    have h1 : e ∈ sortLe rankLe (aggregate rs2) := List.mem_of_mem_take he
    have h2 : e ∈ aggregate rs2 := (sortLe_perm rankLe _).mem_iff.mp h1
    exact aggregate_mem rs2 e h2

/-- C7 counterexample: the leaderboard queries group by `(user_id,
username)`, not by user — the responses of user 1 recorded under two
usernames on date 7 produce two separate entries (with the per-username
partial sums), not one combined entry for the user. -/
theorem daily_leaderboard_splits_user_by_username :
    get_daily_leaderboard splitUserResponses 7 5 =
      [⟨1, "alice", 1, 10⟩, ⟨1, "bob", 1, 12⟩] ∧
    (get_daily_leaderboard splitUserResponses 7 5).length = 2 :=
  ⟨by decide, by decide⟩

/-- C7 amended: for every date (and week bucket), the daily and weekly
leaderboards group the matching responses by the `(user_id, username)`
pair, sum `is_correct` and `time_taken` per pair, order entries by
descending correct-count with ties broken by ascending summed elapsed
time, and truncate to the configured maximum size (Python default 5). -/
theorem leaderboard_ranking (rs : List ResponseRow) (d w limit : Nat) :
    (List.Pairwise (fun a b => rankLe a b = true) (get_daily_leaderboard rs d limit) ∧
     (get_daily_leaderboard rs d limit).length ≤ limit ∧
     ∀ e ∈ get_daily_leaderboard rs d limit,
       e.score = sumCorrect ((rs.filter fun r => r.date == d).filter fun r =>
           r.user_id == e.user_id && r.username == e.username) ∧
       e.total_time = sumTime ((rs.filter fun r => r.date == d).filter fun r =>
           r.user_id == e.user_id && r.username == e.username)) ∧
    (List.Pairwise (fun a b => rankLe a b = true) (get_weekly_leaderboard rs w limit) ∧
     (get_weekly_leaderboard rs w limit).length ≤ limit ∧
     ∀ e ∈ get_weekly_leaderboard rs w limit,
       e.score = sumCorrect ((rs.filter fun r => r.week_number == w).filter fun r =>
           r.user_id == e.user_id && r.username == e.username) ∧
       e.total_time = sumTime ((rs.filter fun r => r.week_number == w).filter fun r =>
           r.user_id == e.user_id && r.username == e.username)) ∧
    LEADERBOARD_DEFAULT_LIMIT = 5 :=
  ⟨leaderboard_core (rs.filter fun r => r.date == d) limit,
   leaderboard_core (rs.filter fun r => r.week_number == w) limit,
   rfl⟩

/-- Witness for the amended C7 on the spec's ranking example: order is
[B, A, C]. -/
theorem leaderboard_ranking_witness :
    List.Pairwise (fun a b => rankLe a b = true)
      (get_daily_leaderboard demoBoardResponses 9 5) ∧
    (get_daily_leaderboard demoBoardResponses 9 5).length ≤ 5 ∧
    get_daily_leaderboard demoBoardResponses 9 5 =
      [⟨102, "B", 2, 25⟩, ⟨101, "A", 2, 40⟩, ⟨103, "C", 1, 40⟩] :=
  ⟨(leaderboard_ranking demoBoardResponses 9 202402 5).1.1,
   (leaderboard_ranking demoBoardResponses 9 202402 5).1.2.1,
   by decide⟩

/-- C8: whenever exactly one active slot exists, the delete branch of
`handle_slot_action` rejects the deletion — the store is returned
unmodified (so the slot is still active) and the outcome is the
last-slot-rejection message. -/
theorem last_slot_delete_rejected (store : List SlotRow)
    (h1 : (get_all_slots store).length = 1) :
    handle_slot_delete_action store = (store, SlotMenuResult.rejectedLastSlot) := by
  rw [handle_slot_delete_action]
  have hne : (get_all_slots store).isEmpty = false := by
    cases hgs : get_all_slots store with
    | nil => rw [hgs] at h1; simp at h1
    | cons a l => simp [List.isEmpty]
  simp [hne, h1]

/-- Witness for C8 on a store with a single active slot. -/
theorem last_slot_delete_rejected_witness :
    handle_slot_delete_action singleSlotStore =
      (singleSlotStore, SlotMenuResult.rejectedLastSlot) :=
  last_slot_delete_rejected singleSlotStore (by decide)

/-- C9: `delete_slot` only flips `is_active` to 0 — the row (and its
`slot_name`) stays in the store — and because the UNIQUE constraint on
`slot_name` spans inactive rows, every later `add_slot` whose lowercased
name equals the deleted slot's stored name returns the duplicate sentinel
`-1` and leaves the store unchanged. -/
theorem deleted_slot_name_not_reusable (store : List SlotRow) (sid : Nat) (nm : String)
    (hrow : ∃ s ∈ store, s.slot_id = sid ∧ s.slot_name = nm) :
    ((delete_slot store sid).1).length = store.length ∧
    (∃ s ∈ (delete_slot store sid).1, s.slot_name = nm ∧ s.is_active = false) ∧
    ∀ n h m, lowerString n = nm →
      add_slot (delete_slot store sid).1 n h m = ((delete_slot store sid).1, -1) := by
  obtain ⟨s, hs, hid, hnm⟩ := hrow
  refine ⟨by simp [delete_slot], ?_, ?_⟩
  · refine ⟨{ s with is_active := false }, ?_, hnm, rfl⟩
    have := List.mem_map_of_mem
      (fun t => if t.slot_id == sid then { t with is_active := false } else t) hs
    simpa [delete_slot, hid] using this
  · intro n h m hlow
    have hmem : ({ s with is_active := false } : SlotRow) ∈ (delete_slot store sid).1 := by
      have := List.mem_map_of_mem
        (fun t => if t.slot_id == sid then { t with is_active := false } else t) hs
      simpa [delete_slot, hid] using this
    have hany : ((delete_slot store sid).1).any
        (fun t => t.slot_name == lowerString n) = true := by
      rw [List.any_eq_true]
      exact ⟨{ s with is_active := false }, hmem, by simp [hnm, hlow]⟩
    rw [add_slot]
    simp only [hany, Bool.true_or, ite_true]

/-- Witness for C9: after deactivating the runtime slot `afternoon`, adding
`afternoon` again is rejected with `-1`. -/
theorem deleted_slot_name_not_reusable_witness :
    ((delete_slot demoSlots3 3).1).length = 3 ∧
    add_slot (delete_slot demoSlots3 3).1 "afternoon" 10 30 =
      ((delete_slot demoSlots3 3).1, -1) := by
  have h := deleted_slot_name_not_reusable demoSlots3 3 "afternoon"
    ⟨⟨3, "afternoon", 15, 0, true⟩, by decide, rfl, rfl⟩
  exact ⟨h.1, h.2.2 "afternoon" 10 30 (by decide)⟩

theorem post_to_group_success (send : String → Option String) (q : Question)
    (g : String) (t : Nat) (s : BotState) (pid : String)
    (hs : send g = some pid)
    (hfresh : ∀ post ∈ s.posts, post.poll_id ≠ pid)
    (hcfresh : ∀ e ∈ s.cache, e.1 ≠ pid) :
    post_to_group send q g t s =
      some { s with
        posts := s.posts ++ [⟨q.question_id, g, pid, t⟩],
        cache := s.cache ++ [(pid, ⟨q.question_id, t, q.correct_option, g⟩)] } := by
  have hany : s.posts.any (fun p => p.poll_id == pid) = false := by
    rw [List.any_eq_false]
    intro p hp
    simp only [beq_iff_eq]
    exact hfresh p hp
  have hput : cachePut s.cache pid ⟨q.question_id, t, q.correct_option, g⟩
      = s.cache ++ [(pid, ⟨q.question_id, t, q.correct_option, g⟩)] := by
    rw [cachePut]
    congr 1
    rw [List.filter_eq_self]
    intro e he
    simpa using hcfresh e he
  have hcreate : create_quiz_post s.posts q.question_id g pid t
      = some (s.posts ++ [⟨q.question_id, g, pid, t⟩]) := by
    rw [create_quiz_post, hany]
    rfl
  simp only [post_to_group, hs, hcreate, hput]

theorem post_quiz_loop_spec (cfg : List String) (send : String → Option String)
    (q : Question) (t : Nat) (gs : List String) (s : BotState)
    (hfresh : ∀ g ∈ gs, ∀ p, send g = some p → ∀ post ∈ s.posts, post.poll_id ≠ p)
    (hcfresh : ∀ g ∈ gs, ∀ p, send g = some p → ∀ e ∈ s.cache, e.1 ≠ p)
    (hinj : ∀ g1 ∈ gs, ∀ g2 ∈ gs, ∀ p, send g1 = some p → send g2 = some p → g1 = g2)
    (hnd : gs.Nodup) :
    post_quiz_loop cfg send q t gs s =
      { s with
        posts := s.posts ++ (succGroups cfg send gs).map fun g =>
          ⟨q.question_id, g, pollIdOf send g, t⟩,
        cache := s.cache ++ (succGroups cfg send gs).map fun g =>
          (pollIdOf send g, ⟨q.question_id, t, q.correct_option, g⟩) } := by
  induction gs generalizing s with
  | nil => simp [post_quiz_loop, succGroups]
  | cons g gs ih =>
    rw [List.nodup_cons] at hnd
    by_cases hc : cfg.contains g
    · cases hsg : send g with
      | none =>
        have hpred : (cfg.contains g && (send g).isSome) = false := by
          rw [hsg]
          simp
        have hsucc : succGroups cfg send (g :: gs) = succGroups cfg send gs := by
          rw [succGroups, List.filter_cons, hpred]
          rfl
        have hstep : post_quiz_loop cfg send q t (g :: gs) s
            = post_quiz_loop cfg send q t gs s := by
          rw [post_quiz_loop, if_pos hc, post_to_group, hsg]
        rw [hstep, hsucc]
        exact ih s (fun g2 hg2 => hfresh g2 (List.mem_cons_of_mem g hg2))
          (fun g2 hg2 => hcfresh g2 (List.mem_cons_of_mem g hg2))
          (fun g1 hg1 g2 hg2 => hinj g1 (List.mem_cons_of_mem g hg1)
            g2 (List.mem_cons_of_mem g hg2))
          hnd.2
      | some pid =>
        have hpred : (cfg.contains g && (send g).isSome) = true := by
          rw [hc, hsg]
          rfl
        have hsucc : succGroups cfg send (g :: gs) = g :: succGroups cfg send gs := by
          rw [succGroups, List.filter_cons, hpred]
          rfl
        have hpost := post_to_group_success send q g t s pid hsg
          (hfresh g (List.mem_cons_self g gs) pid hsg)
          (hcfresh g (List.mem_cons_self g gs) pid hsg)
        have hpid : ∀ g2 ∈ gs, ∀ p, send g2 = some p → pid ≠ p := by
          intro g2 hg2 p hp2 hne
          have := hinj g (List.mem_cons_self g gs) g2 (List.mem_cons_of_mem g hg2) p
            (hne ▸ hsg) hp2
          exact hnd.1 (this ▸ hg2)
        have hstep : post_quiz_loop cfg send q t (g :: gs) s
            = post_quiz_loop cfg send q t gs
              { s with
                posts := s.posts ++ [⟨q.question_id, g, pid, t⟩],
                cache := s.cache ++ [(pid, ⟨q.question_id, t, q.correct_option, g⟩)] } := by
          rw [post_quiz_loop, if_pos hc, hpost]
        have hf2 : ∀ g2 ∈ gs, ∀ p, send g2 = some p →
            ∀ post ∈ s.posts ++ [(⟨q.question_id, g, pid, t⟩ : QuizPost)],
              post.poll_id ≠ p := by
          intro g2 hg2 p hp2 post hpost2
          rcases List.mem_append.mp hpost2 with hm | hm
          · exact hfresh g2 (List.mem_cons_of_mem g hg2) p hp2 post hm
          · have hpm : post = ⟨q.question_id, g, pid, t⟩ := List.mem_singleton.mp hm
            rw [hpm]
            exact hpid g2 hg2 p hp2
        have hc2 : ∀ g2 ∈ gs, ∀ p, send g2 = some p →
            ∀ e ∈ s.cache ++
              [(pid, (⟨q.question_id, t, q.correct_option, g⟩ : ActiveQuiz))],
              e.1 ≠ p := by
          intro g2 hg2 p hp2 e he
          rcases List.mem_append.mp he with hm | hm
          · exact hcfresh g2 (List.mem_cons_of_mem g hg2) p hp2 e hm
          · have hem : e = (pid, ⟨q.question_id, t, q.correct_option, g⟩) :=
              List.mem_singleton.mp hm
            rw [hem]
            exact hpid g2 hg2 p hp2
        have hrec := ih
          { s with
            posts := s.posts ++ [⟨q.question_id, g, pid, t⟩],
            cache := s.cache ++ [(pid, ⟨q.question_id, t, q.correct_option, g⟩)] }
          hf2 hc2
          (fun g1 hg1 g2 hg2 => hinj g1 (List.mem_cons_of_mem g hg1)
            g2 (List.mem_cons_of_mem g hg2))
          hnd.2
        rw [hstep, hrec, hsucc]
        have hval : pollIdOf send g = pid := by
          rw [pollIdOf, hsg]
          rfl
        simp [hval, List.append_assoc]
    · have hcf : cfg.contains g = false := by simpa using hc
      have hpred : (cfg.contains g && (send g).isSome) = false := by
        rw [hcf]
        rfl
      have hsucc : succGroups cfg send (g :: gs) = succGroups cfg send gs := by
        rw [succGroups, List.filter_cons, hpred]
        rfl
      have hstep : post_quiz_loop cfg send q t (g :: gs) s
          = post_quiz_loop cfg send q t gs s := by
        rw [post_quiz_loop, if_neg hc]
      rw [hstep, hsucc]
      exact ih s (fun g2 hg2 => hfresh g2 (List.mem_cons_of_mem g hg2))
        (fun g2 hg2 => hcfresh g2 (List.mem_cons_of_mem g hg2))
        (fun g1 hg1 g2 hg2 => hinj g1 (List.mem_cons_of_mem g hg1)
          g2 (List.mem_cons_of_mem g hg2))
        hnd.2

theorem post_by_id_loop_error (cfg : List String) (send : String → Option String)
    (q : Question) (t : Nat) (gs : List String) (s : BotState)
    (hex : ∃ g ∈ gs, cfg.contains g = true ∧ send g = none) :
    ∃ e, post_by_id_loop cfg send q t gs s = .error e := by
  induction gs generalizing s with
  | nil =>
    obtain ⟨g, hg, -⟩ := hex
    exact absurd hg (List.not_mem_nil g)
  | cons g2 gs ih =>
    obtain ⟨g, hg, hgc, hgn⟩ := hex
    by_cases hc : cfg.contains g2
    · cases hsg : send g2 with
      | none =>
        refine ⟨s, ?_⟩
        rw [post_by_id_loop, if_pos hc, post_to_group, hsg]
      | some pid =>
        have hgtail : g ∈ gs := by
          rcases List.mem_cons.mp hg with h | h
          · rw [h] at hgn
            rw [hgn] at hsg
            cases hsg
          · exact h
        rw [post_by_id_loop, if_pos hc]
        cases hpg : post_to_group send q g2 t s with
        | none => exact ⟨s, rfl⟩
        | some s2 => exact ih s2 ⟨g, hgtail, hgc, hgn⟩
    · have hgtail : g ∈ gs := by
        rcases List.mem_cons.mp hg with h | h
        · rw [h] at hgc
          exact absurd hgc (by simpa using hc)
        · exact h
      rw [post_by_id_loop, if_neg hc]
      exact ih s ⟨g, hgtail, hgc, hgn⟩

/-- C3: in the scheduled fan-out, a per-group send failure does not abort
the remaining groups; a quiz-post record and a fast-path cache entry are
created exactly for the groups whose send succeeded; the question is
marked posted exactly once, after all groups are attempted; and in the
immediate (`post_quiz_by_id`) path a per-group send failure re-raises.
The freshness and injectivity hypotheses model the global uniqueness of
transport poll ids. -/
theorem fanout_partial_failure (cfg : List String) (send : String → Option String)
    (today t : Nat) (s : BotState) (slot : String) (q : Question)
    (hsel : get_next_unposted_question s.questions slot today = some q)
    (hfresh : ∀ g p, send g = some p → ∀ post ∈ s.posts, post.poll_id ≠ p)
    (hcfresh : ∀ g p, send g = some p → ∀ e ∈ s.cache, e.1 ≠ p)
    (hinj : ∀ g1 g2 p, send g1 = some p → send g2 = some p → g1 = g2)
    (hnd : (resolve_groups cfg q.target_groups).Nodup) :
    ((post_quiz cfg send today t s slot).posts =
        s.posts ++ (succGroups cfg send (resolve_groups cfg q.target_groups)).map
          fun g => ⟨q.question_id, g, pollIdOf send g, t⟩) ∧
    ((post_quiz cfg send today t s slot).cache =
        s.cache ++ (succGroups cfg send (resolve_groups cfg q.target_groups)).map
          fun g => (pollIdOf send g, ⟨q.question_id, t, q.correct_option, g⟩)) ∧
    ((post_quiz cfg send today t s slot).markEvents =
        s.markEvents ++ [(q.question_id, t)]) ∧
    (∀ qid2 q2, get_question_by_id s.questions qid2 = some q2 →
      (∃ g ∈ resolve_groups cfg q2.target_groups, cfg.contains g = true ∧ send g = none) →
      ∃ e, post_quiz_by_id cfg send t s qid2 = .error e) := by
  have hloop := post_quiz_loop_spec cfg send q t (resolve_groups cfg q.target_groups) s
    (fun g _ p hp => hfresh g p hp)
    (fun g _ p hp => hcfresh g p hp)
    (fun g1 _ g2 _ p h1 h2 => hinj g1 g2 p h1 h2)
    hnd
  have hpq : post_quiz cfg send today t s slot =
      mark_question_posted
        (post_quiz_loop cfg send q t (resolve_groups cfg q.target_groups) s)
        q.question_id t := by
    simp [post_quiz, hsel]
  refine ⟨?_, ?_, ?_, ?_⟩
  · rw [hpq, hloop]
    rfl
  · rw [hpq, hloop]
    rfl
  · rw [hpq, hloop]
    rfl
  · intro qid2 q2 hq2 hex
    have : post_quiz_by_id cfg send t s qid2 =
        post_by_id_loop cfg send q2 t (resolve_groups cfg q2.target_groups)
          (mark_question_posted s qid2 t) := by
      simp [post_quiz_by_id, hq2]
    rw [this]
    exact post_by_id_loop_error cfg send q2 t _ _ hex

/-- Witness for C3: the spec's fan-out test — group `g1` fails, `g2`
succeeds — leaves exactly one post record and one cache entry (for `g2`)
and one mark event, and the immediate path errors on the same transport. -/
theorem fanout_partial_failure_witness :
    (post_quiz demoCfg demoSend 3 100 demoState "morning").posts =
      [⟨2, "g2", "p2", 100⟩] ∧
    (post_quiz demoCfg demoSend 3 100 demoState "morning").cache =
      [("p2", ⟨2, 100, 'B', "g2"⟩)] ∧
    (post_quiz demoCfg demoSend 3 100 demoState "morning").markEvents = [(2, 100)] := by
  have hinj : ∀ g1 g2 p, demoSend g1 = some p → demoSend g2 = some p → g1 = g2 := by
    intro g1 g2 p h1 h2
    by_cases e1 : g1 = "g2"
    · by_cases e2 : g2 = "g2"
      · rw [e1, e2]
      · simp [demoSend, e2] at h2
    · simp [demoSend, e1] at h1
  have h := fanout_partial_failure demoCfg demoSend 3 100 demoState "morning" demoQ2
    (by decide)
    (fun g p _ post hpost => absurd hpost (List.not_mem_nil post))
    (fun g p _ e he => absurd he (List.not_mem_nil e))
    hinj
    (by decide)
  exact ⟨h.1.trans (by decide), h.2.1.trans (by decide), h.2.2.1.trans (by decide)⟩

theorem selectNext_props (qs : List Question) (slot : String) (today : Nat) (r : Question)
    (h : get_next_unposted_question qs slot today = some r) :
    r ∈ qs ∧ r.slot = slot ∧ r.is_posted = false := by
  simp only [get_next_unposted_question] at h
  cases hmin : minBy qIdLe (qs.filter fun q =>
      q.slot == slot && !q.is_posted && q.scheduled_date == some today) with
  | some x =>
    rw [hmin] at h
    have hx : x = r := by simpa using h
    subst hx
    have hm := minBy_mem _ _ _ hmin
    rw [List.mem_filter] at hm
    obtain ⟨h1, h2⟩ := hm
    simp only [Bool.and_eq_true, beq_iff_eq, Bool.not_eq_true'] at h2
    exact ⟨h1, h2.1.1, h2.1.2⟩
  | none =>
    rw [hmin] at h
    simp only at h
    have hm := minBy_mem _ _ _ h
    rw [List.mem_filter] at hm
    obtain ⟨h1, h2⟩ := hm
    simp only [Bool.and_eq_true, beq_iff_eq, Bool.not_eq_true'] at h2
    exact ⟨h1, h2.1.1, h2.1.2⟩

theorem mark_question_posted_mem (s : BotState) (qid t : Nat) (r : Question)
    (hr : r ∈ (mark_question_posted s qid t).questions)
    (hrq : r.question_id = qid) :
    r.is_posted = true ∧ r.posted_time = some t := by
  simp only [mark_question_posted, List.mem_map] at hr
  obtain ⟨x, hx, hfx⟩ := hr
  by_cases hxq : x.question_id = qid
  · simp only [hxq, beq_self_eq_true, ite_true] at hfx
    rw [← hfx]
    exact ⟨rfl, rfl⟩
  · have : (x.question_id == qid) = false := by simpa using hxq
    rw [this] at hfx
    simp only [Bool.false_eq_true, not_false_iff, ite_false] at hfx
    rw [← hfx] at hrq
    exact absurd hrq hxq

theorem add_response_subset (rs : List ResponseRow) (row r : ResponseRow)
    (h : r ∈ (add_response rs row).1) : r ∈ rs ∨ r = row := by
  rw [add_response] at h
  by_cases hc : (responseChecks row && !hasResponse rs row.user_id row.question_id) = true
  · rw [if_pos hc] at h
    simpa using List.mem_append.mp h
  · rw [if_neg hc] at h
    exact Or.inl h

theorem resolve_quiz_cases (s : BotState) (pid : String) (info : ActiveQuiz)
    (h : resolve_quiz s pid = some info) :
    (∃ e ∈ s.cache, e.2 = info) ∨
    (∃ p ∈ s.posts, info.question_id = p.question_id) := by
  rw [resolve_quiz] at h
  cases hcg : cacheGet s.cache pid with
  | some info2 =>
    rw [hcg] at h
    have h2 : (some info2 : Option ActiveQuiz) = some info := h
    have hinfo : info2 = info := by injection h2
    subst hinfo
    left
    rw [cacheGet] at hcg
    cases hfind : s.cache.find? (fun e => e.1 == pid) with
    | none =>
      rw [hfind] at hcg
      cases hcg
    | some e =>
      rw [hfind] at hcg
      have he2 : e.2 = info2 := by
        have h3 : (some e.2 : Option ActiveQuiz) = some info2 := hcg
        injection h3
      exact ⟨e, List.mem_of_find?_eq_some hfind, he2⟩
  | none =>
    rw [hcg] at h
    cases hpost : get_post_by_poll_id s.posts pid with
    | none =>
      rw [hpost] at h
      have h2 : (none : Option ActiveQuiz) = some info := h
      cases h2
    | some p =>
      rw [hpost] at h
      have h2 : (match get_question_by_id s.questions p.question_id with
          | none => none
          | some q2 => some (⟨p.question_id, p.posted_time, q2.correct_option,
              p.group_id⟩ : ActiveQuiz)) = some info := h
      cases hq2 : get_question_by_id s.questions p.question_id with
      | none =>
        rw [hq2] at h2
        cases h2
      | some q2 =>
        rw [hq2] at h2
        have h3 : (⟨p.question_id, p.posted_time, q2.correct_option, p.group_id⟩ :
            ActiveQuiz) = info := by injection h2
        right
        exact ⟨p, List.mem_of_find?_eq_some hpost, by rw [← h3]⟩

/-- C10: if every per-group send fails during a scheduled fan-out, the
selected question is nevertheless marked posted with the fan-out
timestamp while zero post records and zero cache entries exist for it; as
a consequence `get_next_unposted_question` can never return it again, no
poll id ever resolves to it, and `handle_poll_answer` can never record a
response for it. -/
theorem all_sends_fail_orphans_question (cfg : List String)
    (send : String → Option String) (today t : Nat) (s : BotState) (slot : String)
    (q : Question)
    (hsel : get_next_unposted_question s.questions slot today = some q)
    (hallfail : ∀ g, send g = none)
    (hnopost : ∀ p ∈ s.posts, p.question_id ≠ q.question_id)
    (hnocache : ∀ e ∈ s.cache, (e.2).question_id ≠ q.question_id) :
    ((post_quiz cfg send today t s slot).posts = s.posts) ∧
    ((post_quiz cfg send today t s slot).cache = s.cache) ∧
    ((post_quiz cfg send today t s slot).responses = s.responses) ∧
    ((post_quiz cfg send today t s slot).markEvents =
        s.markEvents ++ [(q.question_id, t)]) ∧
    (∀ r ∈ (post_quiz cfg send today t s slot).questions,
        r.question_id = q.question_id → r.is_posted = true ∧ r.posted_time = some t) ∧
    (∀ slot2 today2 r,
        get_next_unposted_question (post_quiz cfg send today t s slot).questions
          slot2 today2 = some r → r.question_id ≠ q.question_id) ∧
    (∀ pid info, resolve_quiz (post_quiz cfg send today t s slot) pid = some info →
        info.question_id ≠ q.question_id) ∧
    (∀ pid u un oids rt rd wk r,
        r ∈ ((handle_poll_answer (post_quiz cfg send today t s slot)
            pid u un oids rt rd wk).1).responses →
        r.question_id = q.question_id → r ∈ s.responses) := by
  have hloopid : ∀ gs s2, post_quiz_loop cfg send q t gs s2 = s2 := by
    intro gs
    induction gs with
    | nil => intro s2; rfl
    | cons g gs ih =>
      intro s2
      rw [post_quiz_loop]
      by_cases hc : cfg.contains g
      · rw [if_pos hc, post_to_group, hallfail g]
        exact ih s2
      · rw [if_neg hc]
        exact ih s2
  have hpq : post_quiz cfg send today t s slot = mark_question_posted s q.question_id t := by
    simp [post_quiz, hsel, hloopid]
  have hmarked : ∀ r ∈ (post_quiz cfg send today t s slot).questions,
      r.question_id = q.question_id → r.is_posted = true ∧ r.posted_time = some t := by
    intro r hr hrq
    exact mark_question_posted_mem s q.question_id t r (hpq ▸ hr) hrq
  have hresolve : ∀ pid info,
      resolve_quiz (post_quiz cfg send today t s slot) pid = some info →
      info.question_id ≠ q.question_id := by
    intro pid info hres
    rw [hpq] at hres
    rcases resolve_quiz_cases _ pid info hres with ⟨e, he, hei⟩ | ⟨p, hp, hqi⟩
    · have he2 : e ∈ s.cache := he
      rw [← hei]
      exact hnocache e he2
    · have hp2 : p ∈ s.posts := hp
      rw [hqi]
      exact hnopost p hp2
  refine ⟨by rw [hpq]; rfl, by rw [hpq]; rfl, by rw [hpq]; rfl, by rw [hpq]; rfl,
    hmarked, ?_, hresolve, ?_⟩
  · intro slot2 today2 r hsel2 hrq
    obtain ⟨hmem, -, hposted⟩ := selectNext_props _ slot2 today2 r hsel2
    have := (hmarked r hmem hrq).1
    rw [this] at hposted
    cases hposted
  · intro pid u un oids rt rd wk r hr hrq
    rw [hpq] at hr
    cases hres : resolve_quiz (mark_question_posted s q.question_id t) pid with
    | none =>
      have heq : handle_poll_answer (mark_question_posted s q.question_id t)
          pid u un oids rt rd wk
          = (mark_question_posted s q.question_id t, AnswerOutcome.unknownPoll) := by
        rw [handle_poll_answer, hres]
      rw [heq] at hr
      exact hr
    | some info =>
      have hne : info.question_id ≠ q.question_id := by
        refine hresolve pid info ?_
        rw [hpq]
        exact hres
      cases oids with
      | nil =>
        have heq : handle_poll_answer (mark_question_posted s q.question_id t)
            pid u un [] rt rd wk
            = (mark_question_posted s q.question_id t, AnswerOutcome.ignored) := by
          rw [handle_poll_answer, hres]
        rw [heq] at hr
        exact hr
      | cons i rest =>
        have heq : handle_poll_answer (mark_question_posted s q.question_id t)
            pid u un (i :: rest) rt rd wk
            = ({ mark_question_posted s q.question_id t with
                  responses := (add_response
                    (mark_question_posted s q.question_id t).responses
                    ⟨u, un, info.question_id, optionLetter i,
                     if optionLetter i = info.correct_option then 1 else 0,
                     rt, (rt : Int) - (info.posted_time : Int), wk, rd,
                     info.group_id⟩).1 },
               if (add_response (mark_question_posted s q.question_id t).responses
                    ⟨u, un, info.question_id, optionLetter i,
                     if optionLetter i = info.correct_option then 1 else 0,
                     rt, (rt : Int) - (info.posted_time : Int), wk, rd,
                     info.group_id⟩).2
               then AnswerOutcome.recorded else AnswerOutcome.duplicate) := by
          rw [handle_poll_answer, hres]
        rw [heq] at hr
        rcases add_response_subset _ _ r hr with hm | hm
        · exact hm
        · rw [hm] at hrq
          exact absurd hrq hne

/-- Witness for C10: on the demo state with the all-failing transport, no
post or cache entry exists, yet the question is marked posted once. -/
theorem all_sends_fail_orphans_question_witness :
    (post_quiz demoCfg failSend 3 100 demoState "morning").posts = [] ∧
    (post_quiz demoCfg failSend 3 100 demoState "morning").cache = [] ∧
    (post_quiz demoCfg failSend 3 100 demoState "morning").markEvents = [(2, 100)] := by
  have h := all_sends_fail_orphans_question demoCfg failSend 3 100 demoState "morning"
    demoQ2 (by decide) (fun g => rfl)
    (fun p hp => absurd hp (List.not_mem_nil p))
    (fun e he => absurd he (List.not_mem_nil e))
  exact ⟨h.1, h.2.1, h.2.2.2.1⟩

end QuizBot
